/-
  Verification of the analytics pipeline of the personal finance dashboard
  (src/ai_financial_tool_react_app.jsx): categorization, monthly aggregation,
  linear forecasting, budget alerting, goal progress and CSV ingestion.

  Shallow embedding conventions:
  * JS numbers are modelled as exact rationals (ℚ); the JS value `NaN`
    (which can arise from `Number(...)` on a non-numeric string) is modelled
    by the extra constructor `JSNum.nan`, with the JS comparison semantics
    `NaN > x = false` and `Math.abs(NaN) > x = false`.
  * JS strings are sequences of characters, modelled as `List Char`
    (written `Str` below); `str s` injects a Lean string literal.
  * `Number(x.toFixed(2))` is modelled as rounding the exact rational to
    2 decimal places with ties going up (the ECMAScript `toFixed` rule
    "pick the larger n"), i.e. `round2`.
  * JS `text.includes(kw)` is contiguous-substring containment.
-/
import Mathlib

namespace FinTool

/-- A JS string: a sequence of characters. -/
abbrev Str := List Char

/-- Inject a Lean string literal into the `Str` model. -/
def str (s : String) : Str := s.toList

/-- A JS number: either an actual (exact) rational value or `NaN`. -/
inductive JSNum where
  | num (q : ℚ)
  | nan
deriving DecidableEq, Repr

/-- JS `amount > 0` on a `JSNum` (`NaN > 0` is `false`). -/
def JSNum.gtZero : JSNum → Bool
  | .num q => decide (0 < q)
  | .nan => false

/-- JS `Math.abs(amount) > c` on a `JSNum` (`Math.abs(NaN) > c` is `false`). -/
def JSNum.absGt (a : JSNum) (c : ℚ) : Bool :=
  match a with
  | .num q => decide (c < |q|)
  | .nan => false

/-- Whether the first character list occurs at the very start of the second. -/
def beginsWith : Str → Str → Bool
  | [], _ => true
  | _ :: _, [] => false
  | a :: as, b :: bs => a == b && beginsWith as bs

/-- Contiguous-substring containment: JS `text.includes(kw)`
(source line 57). -/
def stringIncludes (text kw : Str) : Bool :=
  match text with
  | [] => kw.isEmpty
  | c :: rest => beginsWith kw (c :: rest) || stringIncludes rest kw

/-- The fixed category label set `CATEGORIES` (source lines 27-37). -/
def CATEGORIES : List String :=
  ["Groceries", "Entertainment", "Transport", "Dining", "Utilities",
   "Health", "Shopping", "Income", "Other"]

/-- Keyword list of `KEYWORD_MAP.Groceries` (source line 40). -/
def groceriesKeywords : List Str :=
  [str "grocery", str "supermarket", str "market", str "aldi", str "walmart"]

/-- Keyword list of `KEYWORD_MAP.Entertainment` (source line 41). -/
def entertainmentKeywords : List Str :=
  [str "netflix", str "movie", str "concert", str "spotify", str "game"]

/-- Keyword list of `KEYWORD_MAP.Transport` (source line 42). -/
def transportKeywords : List Str :=
  [str "uber", str "lyft", str "taxi", str "bus", str "train", str "fuel",
   str "gas"]

/-- Keyword list of `KEYWORD_MAP.Dining` (source line 43). -/
def diningKeywords : List Str :=
  [str "restaurant", str "cafe", str "diner", str "pizza", str "coffee",
   str "eat"]

/-- Keyword list of `KEYWORD_MAP.Utilities` (source line 44). -/
def utilitiesKeywords : List Str :=
  [str "electric", str "water", str "gas bill", str "internet", str "phone"]

/-- Keyword list of `KEYWORD_MAP.Health` (source line 45). -/
def healthKeywords : List Str :=
  [str "pharmacy", str "hospital", str "doctor", str "dentist", str "clinic"]

/-- Keyword list of `KEYWORD_MAP.Shopping` (source line 46). -/
def shoppingKeywords : List Str :=
  [str "amazon", str "mall", str "clothes", str "shoe", str "store", str "shop"]

/-- Keyword list of `KEYWORD_MAP.Income` (source line 47). -/
def incomeKeywords : List Str :=
  [str "salary", str "deposit", str "payroll", str "refund"]

/-- `KEYWORD_MAP` (source lines 39-48), as an ordered association list:
JS object literals with string keys enumerate entries in insertion order. -/
def KEYWORD_MAP : List (String × List Str) :=
  [("Groceries", groceriesKeywords),
   ("Entertainment", entertainmentKeywords),
   ("Transport", transportKeywords),
   ("Dining", diningKeywords),
   ("Utilities", utilitiesKeywords),
   ("Health", healthKeywords),
   ("Shopping", shoppingKeywords),
   ("Income", incomeKeywords)]

/-- The inner loop `for kw of keywords: if text.includes(kw) return cat`
(source lines 56-58): does any keyword of the list occur in `text`? -/
def matchesAny (kws : List Str) (text : Str) : Bool :=
  kws.any (fun kw => stringIncludes text kw)

/-- The outer loop `for [cat, keywords] of Object.entries(KEYWORD_MAP)`
(source lines 55-59): the first listed category one of whose keywords
occurs in `text`. -/
def firstMatchCat : List (String × List Str) → Str → Option String
  | [], _ => none
  | (cat, kws) :: rest, text =>
    if matchesAny kws text then some cat else firstMatchCat rest text

/-- `categorizeExpense({description, amount})` (source lines 50-63).
JS `!description` is true exactly for the empty (or absent) string;
`description.toLowerCase()` is character-wise lowering. -/
def categorizeExpense (description : Str) (amount : JSNum) : String :=
  if description.isEmpty then "Other"
  else
    let text := description.map Char.toLower
    if amount.gtZero then "Income"
    else
      match firstMatchCat KEYWORD_MAP text with
      | some cat => cat
      | none => if amount.absGt 200 then "Shopping" else "Other"

/-! ## Data model (spec §3), restricted to the fields the pipeline reads -/

/-- A transaction held in the dashboard state (`expenses`), with a numeric
amount (spec §3 `Transaction`: `amount` is never null). -/
structure Expense where
  date : Str
  description : Str
  amount : ℚ
  category : String
deriving DecidableEq, Repr

/-- One entry of the derived monthly series (spec §3 `MonthlyTotal`). -/
structure MonthlyTotal where
  month : Str
  total : ℚ
deriving DecidableEq, Repr

/-- One forecast entry (spec §3 `Prediction`); source pushes
`{monthIndex, predicted}` (lines 82-88). -/
structure Prediction where
  monthIndex : ℕ
  predicted : ℚ
deriving DecidableEq, Repr

/-- Budget settings (spec §3 `Budget`): the source keeps them as the two
state values `budget` and `alertThresholdPercent` (lines 138, 148). -/
structure Budget where
  monthlyLimit : ℚ
  alertThresholdPercent : ℚ
deriving DecidableEq, Repr

/-- A savings goal (spec §3 `Goal`; source `addGoal`, line 225). -/
structure Goal where
  id : Str
  name : Str
  target : ℚ
  createdAt : Str
deriving DecidableEq, Repr

/-- Result of `progressForGoal` (source line 236): `{saved, pct}`. -/
structure GoalProgress where
  saved : ℚ
  pct : ℤ
deriving DecidableEq, Repr

/-! ## Aggregator -/

/-- Models `monthKey` (source lines 92-97): for well-formed ISO
`YYYY-MM-DD` date strings evaluated in a UTC-equivalent context,
`new Date`/`getFullYear`/zero-padded `getMonth()+1` reproduce exactly the
`YYYY-MM` prefix of the date string, i.e. its first 7 characters. -/
def monthKey (date : Str) : Str := date.take 7

/-- `Number(x.toFixed(2))`: round to 2 decimal places, ties going up
(ECMAScript `toFixed` picks the larger candidate integer). -/
def round2 (q : ℚ) : ℚ := (round (100 * q) : ℚ) / 100

/-- `map[key] = (map[key] || 0) + amt` (source line 200) on a JS object used
as a map: updates the existing entry in place or appends a new one at the
end (JS string-keyed objects preserve insertion order). -/
def addToMap : List (Str × ℚ) → Str → ℚ → List (Str × ℚ)
  | [], key, amt => [(key, amt)]
  | (k, v) :: rest, key, amt =>
    if k = key then (k, v + amt) :: rest
    else (k, v) :: addToMap rest key amt

/-- Lexicographic `≤` on character sequences: the effect of the comparator
`(a, b) => a.month.localeCompare(b.month)` on ASCII month keys. -/
def lexLe : Str → Str → Bool
  | [], _ => true
  | _ :: _, [] => false
  | a :: as, b :: bs => a < b || (a == b && lexLe as bs)

/-- Insert one entry into a month-sorted list (helper for `sortByMonth`). -/
def insertByMonth (x : MonthlyTotal) : List MonthlyTotal → List MonthlyTotal
  | [] => [x]
  | y :: ys => if lexLe x.month y.month then x :: y :: ys
               else y :: insertByMonth x ys

/-- `.sort((a, b) => a.month.localeCompare(b.month))` (source line 204):
sort ascending by month key. Month keys in the aggregation map are
pairwise distinct, so which correct sorting algorithm is used is
unobservable; modelled as insertion sort. -/
def sortByMonth : List MonthlyTotal → List MonthlyTotal
  | [] => []
  | x :: xs => insertByMonth x (sortByMonth xs)

/-- The `monthlyTotals` computation (source lines 196-206): accumulate
`Number(e.amount) || 0` (identity on numeric amounts) per month key at full
precision, round each month's sum to 2 decimals via `toFixed(2)`, and sort
ascending by month key. -/
def monthlyTotals (expenses : List Expense) : List MonthlyTotal :=
  let m := expenses.foldl (fun acc e => addToMap acc (monthKey e.date) e.amount) []
  sortByMonth (m.map (fun p => { month := p.1, total := round2 p.2 }))

/-! ## Forecaster -/

/-- `reduce((a, b) => a + b, 0)` on a list of numbers (source lines 72-73). -/
def jsSum (l : List ℚ) : ℚ := l.foldl (fun a b => a + b) 0

/-- The slope fitted by `linearRegressionPredict` (source lines 70-80):
`num/den` over the zero-based indices, with the `den === 0` guard. -/
def linRegSlope (ys : List ℚ) : ℚ :=
  let n := ys.length
  let xs := (List.range n).map (fun i => (i : ℚ))
  let xMean := jsSum xs / n
  let yMean := jsSum ys / n
  let num := jsSum ((xs.zip ys).map (fun p => (p.1 - xMean) * (p.2 - yMean)))
  let den := jsSum (xs.map (fun x => (x - xMean) * (x - xMean)))
  if den = 0 then 0 else num / den

/-- The intercept `yMean - slope * xMean` (source line 81). -/
def linRegIntercept (ys : List ℚ) : ℚ :=
  let n := ys.length
  let xs := (List.range n).map (fun i => (i : ℚ))
  let xMean := jsSum xs / n
  let yMean := jsSum ys / n
  yMean - linRegSlope ys * xMean

/-- `linearRegressionPredict(monthlyTotals, monthsOut)` (source lines 66-89):
empty series yields `monthsOut` zero predictions; otherwise ordinary
least squares over indices `0..n-1` and, for `i` in `0..monthsOut-1`,
`{monthIndex: n+i, predicted: max(0, slope*(n+i) + intercept)}`. -/
def linearRegressionPredict (series : List MonthlyTotal) (monthsOut : ℕ) :
    List Prediction :=
  let n := series.length
  if n = 0 then (List.range monthsOut).map (fun i => { monthIndex := i, predicted := 0 })
  else
    let ys := series.map (fun m => m.total)
    let slope := linRegSlope ys
    let intercept := linRegIntercept ys
    (List.range monthsOut).map
      (fun i => { monthIndex := n + i,
                  predicted := max 0 (slope * ((n : ℚ) + (i : ℚ)) + intercept) })

/-! ## Alert evaluator -/

/-- `willBreachBudget` (source line 221):
`predictedNextMonth > budget * (alertThresholdPercent / 100)`. -/
def willBreachBudget (predictedNextMonth : ℚ) (b : Budget) : Bool :=
  decide (b.monthlyLimit * (b.alertThresholdPercent / 100) < predictedNextMonth)

/-! ## Goal progress -/

/-- `progressForGoal(goal)` (source lines 231-237): `saved` is the sum of
the positive amounts, returned as `Number(saved.toFixed(2))`; `pct` is
`Math.min(100, Math.round((saved / goal.target) * 100))` computed on the
unrounded sum. `Math.round` rounds half toward +∞, as does `round`. -/
def progressForGoal (expenses : List Expense) (goal : Goal) : GoalProgress :=
  let saved := (expenses.filter (fun e => decide (0 < e.amount))).foldl
    (fun a b => a + b.amount) 0
  let pct := min 100 (round (saved / goal.target * 100))
  { saved := round2 saved, pct := pct }

/-! ## Ingestion (CSV) -/

/-- A transaction produced by the CSV importer (source line 191); the
random `id` field is not modelled. `amount` may be `NaN` when the third
field is not numeric. -/
structure CsvTx where
  date : Str
  description : Str
  amount : JSNum
  category : String
deriving DecidableEq, Repr

/-- JS `String.prototype.trim`: strip leading and trailing whitespace. -/
def trimChars (cs : Str) : Str :=
  ((cs.dropWhile Char.isWhitespace).reverse.dropWhile Char.isWhitespace).reverse

/-- Digit-sequence value (helper for `jsNumber`). -/
def digitsVal (cs : Str) : ℕ :=
  cs.foldl (fun a c => a * 10 + (c.toNat - 48)) 0

/-- Unsigned decimal literal: digits with at most one dot and at least one
digit (helper for `jsNumber`). -/
def parseUnsigned (cs : Str) : Option ℚ :=
  match cs.splitOn '.' with
  | [intPart] =>
    if !intPart.isEmpty && intPart.all Char.isDigit
    then some (digitsVal intPart : ℚ) else none
  | [intPart, fracPart] =>
    if (!intPart.isEmpty || !fracPart.isEmpty) && intPart.all Char.isDigit
        && fracPart.all Char.isDigit
    then some ((digitsVal intPart : ℚ)
               + (digitsVal fracPart : ℚ) / (10 : ℚ) ^ fracPart.length)
    else none
  | _ => none

/-- Models the ECMAScript builtin `Number(...)` conversion used at source
line 190, on already-trimmed strings, for the empty string (0) and plain
optionally-signed decimal literals; every other shape yields `NaN`. -/
def jsNumber (cs : Str) : JSNum :=
  if cs.isEmpty then .num 0
  else
    match cs with
    | '-' :: rest =>
      match parseUnsigned rest with
      | some q => .num (-q)
      | none => .nan
    | '+' :: rest =>
      match parseUnsigned rest with
      | some q => .num q
      | none => .nan
    | _ =>
      match parseUnsigned cs with
      | some q => .num q
      | none => .nan

/-- `text.split(/\r?\n/).map(r => r.trim()).filter(Boolean)` (source
line 183): split into lines, trim each (which also removes a trailing
`\r`), drop empties. -/
def csvRows (text : Str) : List Str :=
  ((text.splitOn '\n').map trimChars).filter (fun r => !r.isEmpty)

/-- One iteration of the import loop (source lines 185-192): a row with
fewer than 3 comma-separated fields is skipped (`continue`); otherwise the
first three fields become date, description and `Number`-parsed amount,
and the transaction is categorized on creation. -/
def parseCsvRow (r : Str) : Option CsvTx :=
  let parts := r.splitOn ','
  if parts.length < 3 then none
  else
    let date := trimChars (parts.getD 0 [])
    let description := trimChars (parts.getD 1 [])
    let amount := jsNumber (trimChars (parts.getD 2 []))
    some { date := date, description := description, amount := amount,
           category := categorizeExpense description amount }

/-- The import loop over all rows, also counting skipped rows (helper for
`parseCsv`). -/
def parseCsvRows : List Str → List CsvTx × ℕ
  | [] => ([], 0)
  | r :: rest =>
    let tail := parseCsvRows rest
    match parseCsvRow r with
    | some tx => (tx :: tail.1, tail.2)
    | none => (tail.1, tail.2 + 1)

/-- `parseCsv(text) -> {transactions, skippedLineCount}`: the parsing loop
of `importCSV` (source lines 181-194), instrumented with the skipped-line
count that the spec's §6 contract exposes (the set and order of parsed
transactions and which lines are skipped are exactly those of the source
loop; the count tallies its `continue` branch). -/
def parseCsv (text : Str) : List CsvTx × ℕ :=
  parseCsvRows (csvRows text)

/-! ## Helper lemmas -/

/-- A category returned by the keyword loop is a key of the map it scanned. -/
theorem firstMatchCat_mem (km : List (String × List Str)) (text : Str)
    (cat : String) (h : firstMatchCat km text = some cat) :
    cat ∈ km.map Prod.fst := by
  induction km with
  | nil => simp [firstMatchCat] at h
  | cons p rest ih =>
    obtain ⟨c, kws⟩ := p
    rw [firstMatchCat] at h
    by_cases hm : matchesAny kws text
    · rw [if_pos hm] at h
      simp at h
      simp [h]
    · rw [if_neg hm] at h
      simpa using Or.inr (ih h)

/-! ## C1 -/

/-- Claim C1 (corrected): for every NON-empty description and every amount
strictly greater than 0, `categorizeExpense` returns `Income`, regardless of
description content. (The original claim also covered the empty description,
but the `!description` check runs before the `amount > 0` check.) -/
theorem positive_amount_income (d : Str) (q : ℚ)
    (hd : d ≠ []) (hq : 0 < q) :
    categorizeExpense d (JSNum.num q) = "Income" := by
  rw [categorizeExpense]
  rw [if_neg (by simpa using hd)]
  simp only [JSNum.gtZero, decide_eq_true hq, if_true]

/-- Witness for C1: the description "salary" is non-empty and the amount 5
is positive, and the categorizer returns `Income` there. -/
theorem positive_amount_income_witness :
    str "salary" ≠ [] ∧ (0 : ℚ) < 5 ∧
      categorizeExpense (str "salary") (JSNum.num 5) = "Income" :=
  ⟨by decide, by decide,
   positive_amount_income (str "salary") 5 (by decide) (by decide)⟩

/-- Counterexample to C1 as stated: with an empty description and the
positive amount 5, `categorizeExpense` returns `Other`, not `Income`
(the `!description` check precedes the `amount > 0` check). -/
theorem empty_description_positive_amount_not_income :
    categorizeExpense (str "") (JSNum.num 5) = "Other" ∧
      categorizeExpense (str "") (JSNum.num 5) ≠ "Income" := by
  constructor <;> decide

/-! ## C10 -/

/-- Claim C10: `categorizeExpense` is total — for every description (empty
or not) and every amount (positive, zero, negative, or the non-numeric
`NaN`), the returned label lies in the fixed nine-element `CATEGORIES` set. -/
theorem categorize_total_in_category_set (d : Str) (a : JSNum) :
    categorizeExpense d a ∈ CATEGORIES := by
  rw [categorizeExpense]
  by_cases hd : d.isEmpty
  · rw [if_pos hd]; decide
  · rw [if_neg hd]
    by_cases ha : a.gtZero
    · simp only [ha, if_true]; decide
    · simp only [ha, if_false]
      cases hm : firstMatchCat KEYWORD_MAP (d.map Char.toLower) with
      | some cat =>
        have hmem := firstMatchCat_mem _ _ _ hm
        have hsub : ∀ x ∈ KEYWORD_MAP.map Prod.fst, x ∈ CATEGORIES := by decide
        exact hsub _ hmem
      | none =>
        by_cases hb : a.absGt 200
        · simp only [hb, if_true]; decide
        · simp only [hb, if_false]; decide

/-! ## C4 -/

/-- Claim C4 (corrected): for every non-positive amount, a description that
contains both a Dining keyword and a Shopping keyword — and no keyword of
any category checked before Dining (Groceries, Entertainment, Transport) —
is categorized as `Dining`: categories are tested in the fixed declaration
order and the first category with a matching keyword wins. (The original
claim omitted the earlier-category condition; a description that also
contains e.g. a Groceries keyword resolves to the earlier category.) -/
theorem dining_before_shopping (d : Str) (q : ℚ) (hq : q ≤ 0)
    (hdin : matchesAny diningKeywords (d.map Char.toLower) = true)
    (hshop : matchesAny shoppingKeywords (d.map Char.toLower) = true)
    (hgro : matchesAny groceriesKeywords (d.map Char.toLower) = false)
    (hent : matchesAny entertainmentKeywords (d.map Char.toLower) = false)
    (htra : matchesAny transportKeywords (d.map Char.toLower) = false) :
    categorizeExpense d (JSNum.num q) = "Dining" := by
  have hd : ¬ d.isEmpty := by
    cases d with
    | nil => revert hdin; decide
    | cons c cs => simp
  rw [categorizeExpense, if_neg hd]
  have hpos : (JSNum.num q).gtZero = false := by
    simp [JSNum.gtZero, not_lt.mpr hq]
  simp only [hpos, if_false, KEYWORD_MAP, firstMatchCat, hgro, hent, htra,
    hdin, if_false, if_true]
  simp

/-- Witness for C4: "cafe mall" (amount −1) contains the Dining keyword
"cafe" and the Shopping keyword "mall", no keyword of an earlier category,
and is categorized `Dining`. -/
theorem dining_before_shopping_witness :
    (-1 : ℚ) ≤ 0 ∧
    matchesAny diningKeywords ((str "cafe mall").map Char.toLower) = true ∧
    matchesAny shoppingKeywords ((str "cafe mall").map Char.toLower) = true ∧
    categorizeExpense (str "cafe mall") (JSNum.num (-1)) = "Dining" :=
  ⟨by norm_num, by decide, by decide,
   dining_before_shopping (str "cafe mall") (-1) (by norm_num) (by decide)
     (by decide) (by decide) (by decide) (by decide)⟩

/-- Counterexample to C4 as stated: "market cafe mall" (amount −1) contains
both the Dining keyword "cafe" and the Shopping keyword "mall", yet it is
categorized `Groceries`, not `Dining`, because the Groceries keyword
"market" is checked first. -/
theorem dining_shopping_claim_fails_with_earlier_keyword :
    stringIncludes ((str "market cafe mall").map Char.toLower) (str "cafe") = true ∧
    stringIncludes ((str "market cafe mall").map Char.toLower) (str "mall") = true ∧
    str "cafe" ∈ diningKeywords ∧ str "mall" ∈ shoppingKeywords ∧
    categorizeExpense (str "market cafe mall") (JSNum.num (-1)) = "Groceries" ∧
    categorizeExpense (str "market cafe mall") (JSNum.num (-1)) ≠ "Dining" := by
  refine ⟨by decide, by decide, by decide, by decide, by decide, by decide⟩

/-! ## C6 -/

/-- Claim C6: `willBreachBudget` reports a breach exactly when the predicted
next-period value strictly exceeds `monthlyLimit × (alertThresholdPercent / 100)`;
equality does not breach, so 1000 against a 1000 limit at 100% does not
breach while 1000.01 does. -/
theorem breach_iff_strictly_over_threshold :
    (∀ (p : ℚ) (b : Budget),
        willBreachBudget p b = true ↔
          b.monthlyLimit * (b.alertThresholdPercent / 100) < p) ∧
    willBreachBudget 1000 { monthlyLimit := 1000, alertThresholdPercent := 100 } = false ∧
    willBreachBudget (1000 + 1/100) { monthlyLimit := 1000, alertThresholdPercent := 100 } = true := by
  refine ⟨fun p b => by simp [willBreachBudget], ?_, ?_⟩
  · simp only [willBreachBudget, decide_eq_false_iff_not, not_lt]
    norm_num
  · simp only [willBreachBudget, decide_eq_true_eq]
    norm_num

/-! ## C9 -/

/-- Claim C9: the `saved` value returned by `progressForGoal` does not
depend on the goal argument — any two goals over the same transaction list
count exactly the same positive transactions toward their progress. -/
theorem saved_independent_of_goal (txs : List Expense) (g₁ g₂ : Goal) :
    (progressForGoal txs g₁).saved = (progressForGoal txs g₂).saved := rfl

/-! ## C7 -/

/-- A left fold accumulating `+ e.amount` computes the sum of the amounts. -/
theorem foldl_add_amount (txs : List Expense) (a : ℚ) :
    txs.foldl (fun x e => x + e.amount) a = a + (txs.map (fun e => e.amount)).sum := by
  induction txs generalizing a with
  | nil => simp
  | cons e rest ih => simp [List.foldl_cons, ih, add_assoc]

/-- Rounding (half toward +∞) is monotone. -/
theorem round_mono_q {x y : ℚ} (h : x ≤ y) : round x ≤ round y := by
  rw [round_eq, round_eq]
  exact Int.floor_mono (by linarith)

/-- Rounding a rational thereafter capped at 100 commutes with capping. -/
theorem round_min_100 (x : ℚ) : round (min 100 x) = min 100 (round x) := by
  have h100 : round (100 : ℚ) = 100 := by
    rw [show ((100 : ℚ)) = ((100 : ℤ) : ℚ) by norm_num, round_intCast]
  rcases le_total x 100 with h | h
  · rw [min_eq_right h, eq_comm, min_eq_right]
    calc round x ≤ round (100 : ℚ) := round_mono_q h
      _ = 100 := h100
  · rw [min_eq_left h, h100, eq_comm, min_eq_left]
    calc (100 : ℤ) = round (100 : ℚ) := h100.symm
      _ ≤ round x := round_mono_q h

/-- The sum of the positive-amount transactions is non-negative. -/
theorem posSum_nonneg (txs : List Expense) :
    0 ≤ ((txs.filter (fun e => decide (0 < e.amount))).map (fun e => e.amount)).sum := by
  apply List.sum_nonneg
  intro x hx
  simp only [List.mem_map, List.mem_filter] at hx
  obtain ⟨e, ⟨_, he⟩, rfl⟩ := hx
  exact le_of_lt (of_decide_eq_true he)

/-- Claim C7 (corrected): for every transaction list and every goal with
strictly positive target, `progressForGoal` returns `saved` equal to the
sum of the positive amounts rounded to 2 decimal places via `toFixed(2)`
(equal to the exact sum whenever that sum has at most 2 decimals), and
`pct` equal to `round(min(100, sum / target × 100))` computed on the
unrounded sum — an integer between 0 and 100. (The original claim stated
`saved` equals the exact sum, which fails for sub-cent amounts.) -/
theorem goalProgress_formula (txs : List Expense) (g : Goal)
    (ht : 0 < g.target) :
    (progressForGoal txs g).saved =
      round2 (((txs.filter (fun e => decide (0 < e.amount))).map (fun e => e.amount)).sum) ∧
    (progressForGoal txs g).pct =
      round (min 100
        ((((txs.filter (fun e => decide (0 < e.amount))).map (fun e => e.amount)).sum / g.target) * 100)) ∧
    0 ≤ (progressForGoal txs g).pct ∧ (progressForGoal txs g).pct ≤ 100 := by
  have hfold := foldl_add_amount (txs.filter (fun e => decide (0 < e.amount))) 0
  rw [zero_add] at hfold
  have hS := posSum_nonneg txs
  refine ⟨?_, ?_, ?_, ?_⟩
  · simp only [progressForGoal, hfold]
  · simp only [progressForGoal, hfold, round_min_100]
  · simp only [progressForGoal, hfold]
    refine le_min (by norm_num) ?_
    have : (0 : ℤ) = round (0 : ℚ) := round_zero.symm
    rw [this]
    refine round_mono_q ?_
    have := div_nonneg hS (le_of_lt ht)
    positivity
  · simp only [progressForGoal]
    exact min_le_left _ _

/-- Witness for C7: one transaction of +250 and one of −100 against a
target of 500 give saved 250 and percent 50, matching the theorem. -/
theorem goalProgress_formula_witness :
    (0 : ℚ) <
      (Goal.mk (str "g1") (str "Trip") 500 (str "2025-01-01")).target ∧
    ((progressForGoal
        [Expense.mk (str "2025-01-03") (str "Salary deposit") 250 "Income",
         Expense.mk (str "2025-01-04") (str "Grocery store") (-100) "Groceries"]
        (Goal.mk (str "g1") (str "Trip") 500 (str "2025-01-01"))).saved =
      round2 ((([Expense.mk (str "2025-01-03") (str "Salary deposit") 250 "Income",
         Expense.mk (str "2025-01-04") (str "Grocery store") (-100) "Groceries"].filter
            (fun e => decide (0 < e.amount))).map (fun e => e.amount)).sum) ∧
     (progressForGoal
        [Expense.mk (str "2025-01-03") (str "Salary deposit") 250 "Income",
         Expense.mk (str "2025-01-04") (str "Grocery store") (-100) "Groceries"]
        (Goal.mk (str "g1") (str "Trip") 500 (str "2025-01-01"))).pct =
      round (min 100
        (((([Expense.mk (str "2025-01-03") (str "Salary deposit") 250 "Income",
         Expense.mk (str "2025-01-04") (str "Grocery store") (-100) "Groceries"].filter
            (fun e => decide (0 < e.amount))).map (fun e => e.amount)).sum /
          (Goal.mk (str "g1") (str "Trip") 500 (str "2025-01-01")).target) * 100)) ∧
     0 ≤ (progressForGoal
        [Expense.mk (str "2025-01-03") (str "Salary deposit") 250 "Income",
         Expense.mk (str "2025-01-04") (str "Grocery store") (-100) "Groceries"]
        (Goal.mk (str "g1") (str "Trip") 500 (str "2025-01-01"))).pct ∧
     (progressForGoal
        [Expense.mk (str "2025-01-03") (str "Salary deposit") 250 "Income",
         Expense.mk (str "2025-01-04") (str "Grocery store") (-100) "Groceries"]
        (Goal.mk (str "g1") (str "Trip") 500 (str "2025-01-01"))).pct ≤ 100) :=
  ⟨by norm_num,
   goalProgress_formula
     [Expense.mk (str "2025-01-03") (str "Salary deposit") 250 "Income",
      Expense.mk (str "2025-01-04") (str "Grocery store") (-100) "Groceries"]
     (Goal.mk (str "g1") (str "Trip") 500 (str "2025-01-01")) (by norm_num)⟩

/-- Counterexample to C7 as stated: a single positive transaction of 0.005
sums to 0.005, but `progressForGoal` returns `saved = 0.01` (the sum passed
through `toFixed(2)`), which differs from the sum. -/
theorem goalProgress_saved_rounds :
    (progressForGoal
        [Expense.mk (str "2025-01-05") (str "Deposit") (1/200) "Income"]
        (Goal.mk (str "g1") (str "Trip") 500 (str "2025-01-01"))).saved = 1/100 ∧
    ((([Expense.mk (str "2025-01-05") (str "Deposit") (1/200) "Income"]).filter
        (fun e => decide (0 < e.amount))).map (fun e => e.amount)).sum = 1/200 ∧
    (1 / 100 : ℚ) ≠ 1 / 200 := by
  have hpos : (0 : ℚ) < 1/200 := by norm_num
  refine ⟨?_, ?_, by norm_num⟩
  · simp only [progressForGoal, List.filter_cons, List.filter_nil,
      decide_eq_true hpos, if_true, List.foldl_cons, List.foldl_nil, zero_add,
      round2]
    norm_num [round_eq]
  · simp [List.filter_cons, decide_eq_true hpos]

/-! ## C5 and C8 (forecaster) -/

/-- On a one-point series the fitted slope is 0 (`den === 0` guard). -/
theorem linRegSlope_single (t : ℚ) : linRegSlope [t] = 0 := by
  have hr : List.range 1 = [0] := rfl
  rw [linRegSlope]
  simp only [hr, List.length_cons, List.length_nil, List.map_cons,
    List.map_nil, List.zip_cons_cons, List.zip_nil_right, jsSum,
    List.foldl_cons, List.foldl_nil, Nat.cast_zero]
  norm_num

/-- On a one-point series the intercept is the single `total` value. -/
theorem linRegIntercept_single (t : ℚ) : linRegIntercept [t] = t := by
  have hr : List.range 1 = [0] := rfl
  rw [linRegIntercept]
  simp only [hr, List.length_cons, List.length_nil, List.map_cons,
    List.map_nil, jsSum, List.foldl_cons, List.foldl_nil, Nat.cast_zero,
    linRegSlope_single]
  norm_num

/-- Claim C5: on a single-element series `[{month, total: t}]` and any
positive horizon, the fitted slope is 0, the intercept is `t`, and the
forecast is flat: exactly `horizon` predictions, each equal to `max 0 t`. -/
theorem forecast_single_point_flat (m : Str) (t : ℚ) (h : ℕ) (hh : 0 < h) :
    linRegSlope [t] = 0 ∧ linRegIntercept [t] = t ∧
    (linearRegressionPredict [MonthlyTotal.mk m t] h).length = h ∧
    ∀ p ∈ linearRegressionPredict [MonthlyTotal.mk m t] h,
      p.predicted = max 0 t := by
  refine ⟨linRegSlope_single t, linRegIntercept_single t, ?_, ?_⟩
  · simp [linearRegressionPredict]
  · intro p hp
    simp only [linearRegressionPredict, List.length_cons, List.length_nil,
      if_neg (by norm_num : ¬ (0 + 1 = 0)), List.map_cons, List.map_nil,
      List.mem_map, List.mem_range] at hp
    obtain ⟨i, _, rfl⟩ := hp
    simp [linRegSlope_single, linRegIntercept_single]

/-- Witness for C5: horizon 2 with single total 100 yields the flat
forecast [{1, 100}, {2, 100}]. -/
theorem forecast_single_point_flat_witness :
    0 < 2 ∧
    (linRegSlope [(100 : ℚ)] = 0 ∧ linRegIntercept [(100 : ℚ)] = 100 ∧
     (linearRegressionPredict [MonthlyTotal.mk (str "2025-01") 100] 2).length = 2 ∧
     ∀ p ∈ linearRegressionPredict [MonthlyTotal.mk (str "2025-01") 100] 2,
       p.predicted = max 0 100) ∧
    linearRegressionPredict [MonthlyTotal.mk (str "2025-01") 100] 2 =
      [Prediction.mk 1 100, Prediction.mk 2 100] :=
  ⟨by norm_num,
   forecast_single_point_flat (str "2025-01") 100 2 (by norm_num),
   by
     simp [linearRegressionPredict, linRegSlope_single, linRegIntercept_single,
       List.range_succ]⟩

/-- Claim C8: for every series (including the empty one) and every positive
horizon, the forecast has exactly `horizon` entries and every predicted
value is non-negative (zero predictions for an empty series, `max 0 ⬝`
clamping otherwise). -/
theorem forecast_length_and_nonneg (series : List MonthlyTotal) (h : ℕ)
    (hh : 0 < h) :
    (linearRegressionPredict series h).length = h ∧
    ∀ p ∈ linearRegressionPredict series h, 0 ≤ p.predicted := by
  unfold linearRegressionPredict
  by_cases hn : series.length = 0
  · rw [if_pos hn]
    refine ⟨by simp, ?_⟩
    intro p hp
    simp only [List.mem_map, List.mem_range] at hp
    obtain ⟨i, _, rfl⟩ := hp
    exact le_refl 0
  · rw [if_neg hn]
    refine ⟨by simp, ?_⟩
    intro p hp
    simp only [List.mem_map, List.mem_range] at hp
    obtain ⟨i, _, rfl⟩ := hp
    exact le_max_left 0 _

/-- Witness for C8: the empty series with horizon 3 yields 3 entries, all
non-negative (and in fact the zero predictions [{0,0},{1,0},{2,0}]). -/
theorem forecast_length_and_nonneg_witness :
    0 < 3 ∧
    ((linearRegressionPredict [] 3).length = 3 ∧
     ∀ p ∈ linearRegressionPredict [] 3, 0 ≤ p.predicted) ∧
    linearRegressionPredict [] 3 =
      [Prediction.mk 0 0, Prediction.mk 1 0, Prediction.mk 2 0] :=
  ⟨by norm_num,
   forecast_length_and_nonneg [] 3 (by norm_num),
   by simp [linearRegressionPredict, List.range_succ]⟩

/-! ## C3 (aggregation conservation) -/

/-- An amount with at most 2 decimal places (a whole number of cents). -/
def IsCents (q : ℚ) : Prop := ∃ n : ℤ, q = (n : ℚ) / 100

/-- Cent amounts are closed under addition. -/
theorem IsCents.add {a b : ℚ} (ha : IsCents a) (hb : IsCents b) :
    IsCents (a + b) := by
  obtain ⟨n, rfl⟩ := ha
  obtain ⟨k, rfl⟩ := hb
  exact ⟨n + k, by push_cast; ring⟩

/-- Rounding to 2 decimals fixes any whole number of cents. -/
theorem round2_eq_of_isCents {q : ℚ} (h : IsCents q) : round2 q = q := by
  obtain ⟨n, rfl⟩ := h
  rw [round2, show (100 : ℚ) * ((n : ℚ) / 100) = (n : ℚ) by field_simp,
    round_intCast]

/-- Updating one key of the accumulation map adds the amount to the sum of
its values. -/
theorem addToMap_snd_sum (m : List (Str × ℚ)) (k : Str) (a : ℚ) :
    ((addToMap m k a).map Prod.snd).sum = (m.map Prod.snd).sum + a := by
  induction m with
  | nil => simp [addToMap]
  | cons p rest ih =>
    rw [addToMap]
    by_cases h : p.1 = k
    · simp only [if_pos h, List.map_cons, List.sum_cons]
      ring
    · simp only [if_neg h, List.map_cons, List.sum_cons, ih]
      ring

/-- Folding the whole transaction list into the accumulation map adds the
sum of all amounts to the sum of the map's values. -/
theorem foldl_addToMap_sum (txs : List Expense) (m : List (Str × ℚ)) :
    ((txs.foldl (fun acc e => addToMap acc (monthKey e.date) e.amount) m).map
        Prod.snd).sum =
      (m.map Prod.snd).sum + (txs.map (fun e => e.amount)).sum := by
  induction txs generalizing m with
  | nil => simp
  | cons e rest ih =>
    rw [List.foldl_cons, ih, addToMap_snd_sum]
    simp [add_assoc]

/-- Map update preserves "all values are cents" when the new amount is. -/
theorem addToMap_cents (m : List (Str × ℚ)) (k : Str) (a : ℚ)
    (hm : ∀ v ∈ m.map Prod.snd, IsCents v) (ha : IsCents a) :
    ∀ v ∈ (addToMap m k a).map Prod.snd, IsCents v := by
  induction m with
  | nil =>
    intro v hv
    simp only [addToMap, List.map_cons, List.map_nil, List.mem_singleton] at hv
    exact hv ▸ ha
  | cons p rest ih =>
    intro v hv
    rw [addToMap] at hv
    by_cases h : p.1 = k
    · rw [if_pos h] at hv
      simp only [List.map_cons, List.mem_cons] at hv
      rcases hv with rfl | hv
      · exact (hm _ (by simp)).add ha
      · exact hm _ (by simp [hv])
    · rw [if_neg h] at hv
      simp only [List.map_cons, List.mem_cons] at hv
      rcases hv with rfl | hv
      · exact hm _ (by simp)
      · exact ih (fun w hw => hm _ (by simp [List.mem_of_mem_tail, hw])) _ hv

/-- Folding cent transactions into a map of cent values keeps every value a
whole number of cents. -/
theorem foldl_addToMap_cents (txs : List Expense) (m : List (Str × ℚ))
    (hm : ∀ v ∈ m.map Prod.snd, IsCents v)
    (htxs : ∀ e ∈ txs, IsCents e.amount) :
    ∀ v ∈ ((txs.foldl
        (fun acc e => addToMap acc (monthKey e.date) e.amount) m).map
          Prod.snd), IsCents v := by
  induction txs generalizing m with
  | nil => exact hm
  | cons e rest ih =>
    rw [List.foldl_cons]
    exact ih _
      (addToMap_cents _ _ _ hm (htxs e (by simp)))
      (fun x hx => htxs x (by simp [hx]))

/-- Inserting into a month-sorted list is a permutation of consing. -/
theorem insertByMonth_perm (x : MonthlyTotal) (l : List MonthlyTotal) :
    (insertByMonth x l).Perm (x :: l) := by
  induction l with
  | nil => rfl
  | cons y ys ih =>
    rw [insertByMonth]
    by_cases h : lexLe x.month y.month
    · rw [if_pos h]
    · rw [if_neg h]
      exact (ih.cons y).trans (List.Perm.swap x y ys)

/-- Sorting by month is a permutation of the input. -/
theorem sortByMonth_perm (l : List MonthlyTotal) : (sortByMonth l).Perm l := by
  induction l with
  | nil => rfl
  | cons x xs ih =>
    rw [sortByMonth]
    exact (insertByMonth_perm x (sortByMonth xs)).trans (ih.cons x)

/-- Claim C3 (corrected): for every sequence of transactions whose amounts
are whole numbers of cents (at most 2 decimal places), the sum of the
`total` fields of `monthlyTotals` equals the sum of all input amounts.
(The original unconditional claim fails: each month's sum is passed through
`toFixed(2)`, so sub-cent amounts are not conserved.) -/
theorem monthly_conservation (expenses : List Expense)
    (hc : ∀ e ∈ expenses, IsCents e.amount) :
    ((monthlyTotals expenses).map (fun m => m.total)).sum =
      (expenses.map (fun e => e.amount)).sum := by
  rw [monthlyTotals]
  have hperm :=
    (sortByMonth_perm
      ((expenses.foldl (fun acc e => addToMap acc (monthKey e.date) e.amount)
          []).map (fun p => MonthlyTotal.mk p.1 (round2 p.2)))).map
      (fun m => m.total)
  rw [hperm.sum_eq, List.map_map]
  have hv := foldl_addToMap_cents expenses [] (by simp) hc
  have hmap :
      (expenses.foldl (fun acc e => addToMap acc (monthKey e.date) e.amount)
          []).map ((fun m => m.total) ∘ (fun p => MonthlyTotal.mk p.1 (round2 p.2))) =
      (expenses.foldl (fun acc e => addToMap acc (monthKey e.date) e.amount)
          []).map Prod.snd := by
    refine List.map_congr_left (fun p hp => ?_)
    exact round2_eq_of_isCents (hv _ (List.mem_map_of_mem Prod.snd hp))
  rw [hmap, foldl_addToMap_sum]
  simp

/-- Witness for C3: two cent-precision transactions (−4.50 in January,
3.00 in February) satisfy the hypothesis and their monthly totals sum to
the sum of the amounts. -/
theorem monthly_conservation_witness :
    (∀ e ∈ [Expense.mk (str "2025-01-05") (str "Coffee shop") (-9/2) "Dining",
            Expense.mk (str "2025-02-01") (str "Refund") 3 "Income"],
        IsCents e.amount) ∧
    ((monthlyTotals
        [Expense.mk (str "2025-01-05") (str "Coffee shop") (-9/2) "Dining",
         Expense.mk (str "2025-02-01") (str "Refund") 3 "Income"]).map
          (fun m => m.total)).sum =
      ([Expense.mk (str "2025-01-05") (str "Coffee shop") (-9/2) "Dining",
        Expense.mk (str "2025-02-01") (str "Refund") 3 "Income"].map
          (fun e => e.amount)).sum := by
  have hc : ∀ e ∈ [Expense.mk (str "2025-01-05") (str "Coffee shop") (-9/2) "Dining",
            Expense.mk (str "2025-02-01") (str "Refund") 3 "Income"],
      IsCents e.amount := by
    intro e he
    simp only [List.mem_cons, List.not_mem_nil, or_false] at he
    rcases he with rfl | rfl
    · exact ⟨-450, by norm_num⟩
    · exact ⟨300, by norm_num⟩
  exact ⟨hc, monthly_conservation _ hc⟩

/-- Counterexample to C3 as stated: a single transaction of 0.005 produces
a monthly total of 0.01 (`toFixed(2)` rounds the month's sum), so the sum
of totals differs from the sum of amounts. -/
theorem conservation_fails_subcent :
    ((monthlyTotals
        [Expense.mk (str "2025-01-05") (str "Deposit") (1/200) "Income"]).map
          (fun m => m.total)).sum ≠
      ([Expense.mk (str "2025-01-05") (str "Deposit") (1/200) "Income"].map
          (fun e => e.amount)).sum := by
  simp only [monthlyTotals, List.foldl_cons, List.foldl_nil, addToMap,
    List.map_cons, List.map_nil, sortByMonth, insertByMonth, List.sum_cons,
    List.sum_nil]
  norm_num [round2, round_eq]

/-! ## C2 (CSV ingestion) -/

/-- A row is skipped exactly when it has fewer than 3 comma-separated
fields. -/
theorem parseCsvRow_none_iff (r : Str) :
    parseCsvRow r = none ↔ (r.splitOn ',').length < 3 := by
  by_cases h : (r.splitOn ',').length < 3
  · simp [parseCsvRow, h]
  · simp [parseCsvRow, h]

/-- The import loop parses exactly the rows with at least 3 fields, in
order, and counts the others as skipped. -/
theorem parseCsvRows_spec (rows : List Str) :
    parseCsvRows rows =
      (rows.filterMap parseCsvRow,
       (rows.filter (fun r => decide ((r.splitOn ',').length < 3))).length) := by
  induction rows with
  | nil => rfl
  | cons r rest ih =>
    rw [parseCsvRows, ih]
    by_cases h : (r.splitOn ',').length < 3
    · have hn : parseCsvRow r = none := (parseCsvRow_none_iff r).mpr h
      simp [hn, List.filterMap_cons, List.filter_cons, h]
    · have hne : parseCsvRow r ≠ none :=
        fun hn => h ((parseCsvRow_none_iff r).mp hn)
      obtain ⟨tx, htx⟩ := Option.ne_none_iff_exists'.mp hne
      simp [htx, List.filterMap_cons, List.filter_cons, h]

/-- Every row is either parsed or counted as skipped: the two tallies
partition the row list. -/
theorem parsed_plus_skipped (rows : List Str) :
    (rows.filterMap parseCsvRow).length +
      ((rows.filter
        (fun r => decide ((r.splitOn ',').length < 3))).length) =
      rows.length := by
  induction rows with
  | nil => rfl
  | cons r rest ih =>
    by_cases h : (r.splitOn ',').length < 3
    · have hn := (parseCsvRow_none_iff r).mpr h
      simp only [List.filterMap_cons, List.filter_cons, hn, decide_eq_true h,
        if_true, List.length_cons]
      omega
    · obtain ⟨tx, htx⟩ :=
        Option.ne_none_iff_exists'.mp (fun hn => h ((parseCsvRow_none_iff r).mp hn))
      simp only [List.filterMap_cons, List.filter_cons, htx,
        decide_eq_false h, Bool.false_eq_true, if_false, List.length_cons]
      omega

/-- Claim C2: `parseCsv` skips every line with fewer than 3 comma-separated
fields without failing — the skipped count is exactly the number of such
lines, the parsed transactions are exactly the remaining lines in order —
and on "2025-01-05,Coffee shop,-4.50\nbadrow" it parses exactly 1
transaction (with the expected date and description) and reports
`skippedLineCount = 1`. -/
theorem parseCsv_skips_short_lines :
    (∀ text : Str,
        (parseCsv text).1 = (csvRows text).filterMap parseCsvRow ∧
        (parseCsv text).2 =
          ((csvRows text).filter
            (fun r => decide ((r.splitOn ',').length < 3))).length ∧
        (parseCsv text).1.length + (parseCsv text).2 = (csvRows text).length) ∧
    (parseCsv (str "2025-01-05,Coffee shop,-4.50\nbadrow")).1.length = 1 ∧
    (parseCsv (str "2025-01-05,Coffee shop,-4.50\nbadrow")).2 = 1 ∧
    (parseCsv (str "2025-01-05,Coffee shop,-4.50\nbadrow")).1.map
        (fun tx => (tx.date, tx.description)) =
      [(str "2025-01-05", str "Coffee shop")] := by
  refine ⟨fun text => ?_, by decide, by decide, by decide⟩
  rw [parseCsv, parseCsvRows_spec]
  exact ⟨rfl, rfl, parsed_plus_skipped (csvRows text)⟩

end FinTool
